import Mathlib

/-!
# Verification of the content acquisition & ranking pipeline

Shallow embedding of the two core modules of the `fueaty/apiserver` repository:

* `app/services/selection/engine.py` — the `SelectionEngine` scoring /
  filtering / ranking pipeline;
* `app/services/collection/engine.py` — the `CollectionEngine` fan-out
  orchestrator, `SiteFactory`, and `AsyncRateLimiter`.

Modelling conventions:

* Python floats are modelled as rationals (`ℚ`).  No claim below depends on
  binary floating-point rounding.
* The transcendental functions `math.log1p` and `math.exp` are abstracted as
  fields of a `MathFns` record; theorems that need analytic facts about
  `exp` (such as `0 ≤ exp x ≤ 1` for `x ≤ 0`) take them as hypotheses, which
  the real functions satisfy.
* `datetime` values are modelled as rational POSIX timestamps in seconds;
  `datetime.now()` becomes an explicit `now` parameter.
* Python dictionaries appearing as configuration are modelled as structures
  (fixed key set) or association lists (open key set), mirroring each
  `.get(key, default)` with an explicit lookup-with-default.
* `asyncio` fan-out (`asyncio.gather`) is modelled by evaluating the per-job
  function over the list of jobs: each job in the source is independent and
  communicates only through its return value.
-/

namespace ApiServer

/-- Abstraction of the two transcendental functions used by the scoring code
(`math.log1p` and `math.exp`).  The embedding is parametric in them; facts
about them enter theorems as explicit hypotheses. -/
structure MathFns where
  log1p : ℚ → ℚ
  exp : ℚ → ℚ

/-- Round-half-to-even on rationals, the tie-breaking rule of Python's
built-in `round`. -/
def roundHalfEven (q : ℚ) : ℤ :=
  let f := ⌊q⌋
  if q - f < 1/2 then f
  else if 1/2 < q - f then f + 1
  else if Even f then f else f + 1

/-- Python `round(q, nd)` for a nonnegative number of digits. -/
def pyRound (nd : ℕ) (q : ℚ) : ℚ :=
  (roundHalfEven (q * 10 ^ nd) : ℚ) / 10 ^ nd

/-- `max(0.0, min(1.0, x))`, the clamp used throughout the scoring code. -/
def clamp01 (x : ℚ) : ℚ := max 0 (min 1 x)

/-- Python `needle in haystack` on strings (substring containment). -/
def strIn (needle haystack : String) : Bool :=
  decide (needle.toList <:+: haystack.toList)

/-- Python `str.lower()`: lower-case each character. -/
def pyLower (s : String) : String :=
  String.mk (s.data.map Char.toLower)

/-- Python `str.split()` with no separator: split on whitespace runs and
drop empty pieces. -/
def pyWords (s : String) : List String :=
  (s.split Char.isWhitespace).filter (· ≠ "")

/-- `len(set(a) & set(b))`: the number of distinct elements common to the
two lists. -/
def wordOverlap (a b : List String) : ℕ :=
  (a.dedup.filter (· ∈ b)).length

/-- Lookup with default on an association list, modelling `dict.get(k, d)`. -/
def dictGet (k : String) (l : List (String × ℚ)) (d : ℚ) : ℚ :=
  (l.lookup k).getD d

/-! ## Data model of `app/services/selection/engine.py` -/

/-- The `weights` entry of `DEFAULT_CONFIG`. -/
structure Weights where
  hot : ℚ
  recency : ℚ
  title : ℚ
  platform : ℚ
deriving DecidableEq

/-- The scoring-relevant keys of the module-level `DEFAULT_CONFIG` dict. -/
structure EngineConfig where
  weights : Weights
  decay_hours : ℚ
  platform_weights : List (String × ℚ)
  threshold_score : ℚ
deriving DecidableEq

/-- `DEFAULT_CONFIG` from `app/services/selection/engine.py`:
`weights = {hot: 0.5, recency: 0.25, title: 0.15, platform: 0.1}`,
`decay_hours = 6.0`,
`platform_weights = {weibo: 1.0, baidu: 0.95, zhihu: 0.9, default: 0.8}`,
`threshold_score = 0.1`. -/
def DEFAULT_CONFIG : EngineConfig :=
  { weights := ⟨1/2, 1/4, 3/20, 1/10⟩
    decay_hours := 6
    platform_weights := [("weibo", 1), ("baidu", 19/20), ("zhihu", 9/10), ("default", 4/5)]
    threshold_score := 1/10 }

/-- The `collected_at` field of an item: absent (or falsy), present but not
parseable by `datetime.fromisoformat` / not a `datetime`, or a parsed
timestamp (seconds). -/
inductive CollectedAt where
  | missing : CollectedAt
  | invalid : CollectedAt
  | valid (t : ℚ) : CollectedAt
deriving DecidableEq

/-- One hotspot/item dict as consumed by the selection engine.
`hot = some v` models a value for which `float(hot)` returns `v`
(a missing key is `item.get("hot", 0)`, i.e. `some 0`); `hot = none` models
a value for which `float(hot)` raises. -/
structure Item where
  id : Option String
  title : Option String
  url : Option String
  hot : Option ℚ
  collected_at : CollectedAt
  site_code : Option String
deriving DecidableEq

/-- The optional `scoring_weights` sub-dict of a platform's
`selection_rules`; each key is looked up with a fallback. -/
structure ScoringWeights where
  hot : Option ℚ
  recency : Option ℚ
  title : Option ℚ
  content_match : Option ℚ
  platform : Option ℚ
deriving DecidableEq

/-- A platform's `selection_rules` dict.  A missing platform (or an empty
dict, which is falsy and carries no keys) is modelled as `none` at use
sites; a present dict is modelled by this structure with each absent key at
its `.get` default. -/
structure PlatformConfig where
  content_preferences : List String
  scoring_weights : Option ScoringWeights
  content_style : String
  name : String
deriving DecidableEq

/-- The score breakdown dict built by `_score_item`.  `content_match` is
present only on the platform-specific-weights path. -/
structure Breakdown where
  hot : ℚ
  recency : ℚ
  title : ℚ
  platform : ℚ
  content_match : Option ℚ
deriving DecidableEq

/-! ## Component scoring functions -/

/-- `SelectionEngine._log1p_norm_hot`: `float(hot)` with fallback `0.0` on a
parse failure, then `max(0.0, min(1.0, log1p(max(0.0, val)) / 10.0))`. -/
def log1pNormHot (mf : MathFns) (hot : Option ℚ) : ℚ :=
  let val : ℚ := hot.getD 0
  clamp01 (mf.log1p (max 0 val) / 10)

/-- `SelectionEngine._recency_score`: `0.5` for a falsy or unparseable
`collected_at`, otherwise `exp(-hours / max(1.0, decay_hours))` with
`hours = max(0.0, (now - collected_at) / 3600)`. -/
def recencyScore (mf : MathFns) (now : ℚ) (c : CollectedAt) (decay : ℚ) : ℚ :=
  match c with
  | .missing => 1/2
  | .invalid => 1/2
  | .valid t =>
      let hours := max 0 ((now - t) / 3600)
      mf.exp (-hours / max 1 decay)

/-- The curated keyword list of `_title_keyword_score`. -/
def titleKws : List String :=
  ["官宣", "爆", "首", "夺冠", "离世", "热", "？", "?", "!", "！", "#"]

/-- `SelectionEngine._title_keyword_score`: `0.0` for a falsy title; else one
point per curated keyword occurring in the title, `+0.5` if the stripped
length is in `[5, 30]`, capped by `min(1.0, score / 3.0)`.  (The source wraps
this in an `lru_cache`; the function is pure, so the cache is
behaviour-transparent.) -/
def titleKeywordScore (title : String) : ℚ :=
  if title = "" then 0
  else
    let score : ℚ := titleKws.foldl (fun acc kw => if strIn kw title then acc + 1 else acc) 0
    let ln := title.trim.length
    let score := if 5 ≤ ln ∧ ln ≤ 30 then score + 1/2 else score
    min 1 (score / 3)

/-- `SelectionEngine._platform_weight`:
`cfg["platform_weights"].get(site_code, cfg["platform_weights"].get("default", 0.8))`.
A `None` site code misses every string key of the dict. -/
def platformWeight (site_code : Option String) (cfg : EngineConfig) : ℚ :=
  match site_code with
  | none => dictGet "default" cfg.platform_weights (4/5)
  | some s =>
      ((cfg.platform_weights.lookup s).orElse
        (fun _ => cfg.platform_weights.lookup "default")).getD (4/5)

/-- The `general_keywords` list of `_content_match_score`. -/
def generalKeywords : List String := ["热点", "新闻", "事件", "话题", "最新", "热门"]

/-- The `for preference in platform_preferences` loop of
`_content_match_score`, accumulating `match_score`:
an exact (lower-cased) substring match contributes `1.0`, a positive word
overlap contributes `min(0.8, overlap * 0.2)`, otherwise the accumulator is
unchanged.  (The loop also records `matched_preferences`, a local list that
does not influence the returned score and is not modelled.) -/
def contentMatchLoop (title : String) : List String → ℚ → ℚ
  | [], acc => acc
  | p :: rest, acc =>
      let pl := (pyLower p)
      if strIn pl title then
        contentMatchLoop title rest (max acc 1)
      else
        let overlap := wordOverlap (pyWords pl) (pyWords title)
        if 0 < overlap then
          contentMatchLoop title rest (max acc (min (4/5) ((overlap : ℚ) * (1/5))))
        else
          contentMatchLoop title rest acc

/-- `SelectionEngine._content_match_score`.  A falsy `platform_config` (the
`None` default or the empty dict for an unconfigured platform) yields `0.5`;
empty `content_preferences` yield `0.5`; otherwise the loop above runs over
the lower-cased title, and a zero loop result falls back to `0.3` when the
title contains a general current-events keyword and to `0.1` otherwise. -/
def contentMatchScore (item : Item) (pc : Option PlatformConfig) : ℚ :=
  match pc with
  | none => 1/2
  | some c =>
      let title := pyLower (item.title.getD "")
      if c.content_preferences = [] then 1/2
      else
        let ms := contentMatchLoop title c.content_preferences 0
        if ms = 0 then
          if generalKeywords.any (fun k => strIn k title) then 3/10 else 1/10
        else ms

/-- `SelectionEngine._score_item`.  Components are computed as above; with a
truthy `platform_config` containing `scoring_weights` the five components are
combined with the platform-specific weights (each falling back to the default
weight, and `content_match` to `0.3`) and the breakdown carries
`content_match`; otherwise the default four-component weighted sum is used.
The returned total is `max(0.0, min(1.0, final))`; breakdown entries are
`round(x, 6)`. -/
def scoreItem (mf : MathFns) (now : ℚ) (item : Item) (cfg : EngineConfig)
    (pc : Option PlatformConfig) : ℚ × Breakdown :=
  let w := cfg.weights
  let decay := cfg.decay_hours
  let hot := log1pNormHot mf item.hot
  let recy := recencyScore mf now item.collected_at decay
  let title := titleKeywordScore (item.title.getD "")
  let pboost := platformWeight item.site_code cfg
  let content_match := contentMatchScore item pc
  match pc with
  | some c =>
      match c.scoring_weights with
      | some sw =>
          let final :=
            hot * sw.hot.getD w.hot +
            recy * sw.recency.getD w.recency +
            title * sw.title.getD w.title +
            content_match * sw.content_match.getD (3/10) +
            pboost * sw.platform.getD w.platform
          (clamp01 final,
            { hot := pyRound 6 hot, recency := pyRound 6 recy, title := pyRound 6 title,
              platform := pyRound 6 pboost, content_match := some (pyRound 6 content_match) })
      | none =>
          let final := w.hot * hot + w.recency * recy + w.title * title + w.platform * pboost
          (clamp01 final,
            { hot := pyRound 6 hot, recency := pyRound 6 recy, title := pyRound 6 title,
              platform := pyRound 6 pboost, content_match := none })
  | none =>
      let final := w.hot * hot + w.recency * recy + w.title * title + w.platform * pboost
      (clamp01 final,
        { hot := pyRound 6 hot, recency := pyRound 6 recy, title := pyRound 6 title,
          platform := pyRound 6 pboost, content_match := none })

/-! ## Selection orchestration -/

/-- `SelectionEngine._generate_content_angle`: the suggestion string is
chosen by substring tests on the platform's `content_style`. -/
def generateContentAngle (hotspot : Item) (pc : Option PlatformConfig) : String :=
  let title := hotspot.title.getD ""
  let style := (pc.map (·.content_style)).getD ""
  if strIn "情感" style then "个人视角：" ++ title ++ "的情感体验分享"
  else if strIn "深度" style || strIn "专业" style then "深度分析：" ++ title ++ "背后的逻辑与影响"
  else if strIn "趋势" style then "趋势解读：" ++ title ++ "的发展趋势分析"
  else "热点解读：" ++ title ++ "的关键信息梳理"

/-- `SelectionEngine._recommend_strategy`: keyed by substring tests on the
platform's `name`. -/
def recommendStrategy (pc : Option PlatformConfig) : String :=
  let name := (pc.map (·.name)).getD ""
  if strIn "小红书" name then "情感共鸣策略"
  else if strIn "知乎" name then "知识分享策略"
  else if strIn "头条" name || strIn "微博" name then "趋势分析策略"
  else "快速资讯策略"

/-- `SelectionEngine._generate_recommendation_reason_simple`.  (The `score`
parameter of the source method is unused by its body.) -/
def generateRecommendationReasonSimple (_score : ℚ) (b : Breakdown) : String :=
  let reasons : List String :=
    (if 7/10 ≤ b.hot then ["热度很高"] else if 4/10 ≤ b.hot then ["热度适中"] else []) ++
    (if 7/10 ≤ b.recency then ["时效性很强"] else if 4/10 ≤ b.recency then ["时效性良好"] else []) ++
    (if 5/10 ≤ b.title then ["标题吸引力强"] else []) ++
    (if 7/10 ≤ b.content_match.getD 0 then ["内容匹配度高"]
     else if 4/10 ≤ b.content_match.getD 0 then ["内容较匹配"] else []) ++
    (if 8/10 ≤ b.platform then ["平台匹配度高"]
     else if 5/10 ≤ b.platform then ["平台适配性良好"] else [])
  let reasons := if reasons = [] then ["综合表现良好"] else reasons
  String.intercalate "，" reasons

/-- One per-channel result dict as built inside
`_analyze_platform_hotspots` for a surviving hotspot. -/
structure SelectionResult where
  hotspot_id : Option String
  title : Option String
  url : Option String
  site_code : Option String
  total_score : ℚ
  content_angle : String
  recommended_strategy : String
  reason : String
  detailed_scores : Breakdown
deriving DecidableEq

/-- The result dict of `_analyze_platform_hotspots` for one hotspot, given
its `(score, breakdown)` pair: `total_score` is `round(score, 2)`. -/
def mkSelectionResult (pc : Option PlatformConfig) (h : Item) (score : ℚ)
    (breakdown : Breakdown) : SelectionResult :=
  { hotspot_id := h.id
    title := h.title
    url := h.url
    site_code := h.site_code
    total_score := pyRound 2 score
    content_angle := generateContentAngle h pc
    recommended_strategy := recommendStrategy pc
    reason := generateRecommendationReasonSimple score breakdown
    detailed_scores := breakdown }

/-- `self.platform_profiles.get(platform, {})`: profiles are an association
list; a missing platform yields the empty dict, which behaves identically to
`None` at every use site and is modelled as `none`. -/
def profilesGet (profiles : List (String × PlatformConfig)) (platform : String) :
    Option PlatformConfig :=
  profiles.lookup platform

/-- The filtering pass of `_analyze_platform_hotspots`: score every hotspot
with `cfg = DEFAULT_CONFIG.copy()` and the platform's profile, keep those
with `score >= threshold_score`, in input order. -/
def platformResultsPreSort (mf : MathFns) (now : ℚ)
    (profiles : List (String × PlatformConfig)) (hotspots : List Item)
    (platform : String) : List SelectionResult :=
  let cfg := DEFAULT_CONFIG
  let pc := profilesGet profiles platform
  hotspots.filterMap (fun h =>
    let sb := scoreItem mf now h cfg pc
    if cfg.threshold_score ≤ sb.1 then some (mkSelectionResult pc h sb.1 sb.2) else none)

/-- The descending comparison used by
`platform_results.sort(key=lambda x: x["total_score"], reverse=True)`. -/
def byTotalDesc (a b : SelectionResult) : Bool :=
  decide (b.total_score ≤ a.total_score)

/-- `SelectionEngine._analyze_platform_hotspots`: threshold filter followed
by a stable descending sort on `total_score` (CPython's `list.sort` is
stable; `reverse=True` reverses the comparison, not the tie order). -/
def analyzePlatformHotspots (mf : MathFns) (now : ℚ)
    (profiles : List (String × PlatformConfig)) (hotspots : List Item)
    (platform : String) : List SelectionResult :=
  (platformResultsPreSort mf now profiles hotspots platform).mergeSort byTotalDesc

/-- The `selection_criteria` metadata dict of `analyze_hotspots`. -/
structure SelectionCriteria where
  strategy_used : String
  total_hotspots_analyzed : ℕ
  platforms_analyzed : List String
  selection_timestamp : String
  threshold_score : ℚ
deriving DecidableEq

/-- The return value of `analyze_hotspots`: per-platform selections (an
insertion-ordered dict, modelled as an association list) plus metadata. -/
structure AnalyzeResult where
  selections : List (String × List SelectionResult)
  selection_criteria : SelectionCriteria
deriving DecidableEq

/-- `SelectionEngine.analyze_hotspots`.  A falsy `platforms` argument
(`None` or the empty list) defaults to all configured platforms; each
platform is analyzed (concurrently in the source, independently here) and
empty per-platform results are dropped (`if platform_result:`). -/
def analyzeHotspots (mf : MathFns) (now : ℚ) (nowIso : String)
    (profiles : List (String × PlatformConfig)) (hotspots : List Item)
    (platforms : Option (List String)) : AnalyzeResult :=
  let platforms' :=
    match platforms with
    | none => profiles.map (·.1)
    | some [] => profiles.map (·.1)
    | some l => l
  let platformResults :=
    platforms'.map (fun p => (p, analyzePlatformHotspots mf now profiles hotspots p))
  { selections := platformResults.filter (fun x => x.2 ≠ [])
    selection_criteria :=
      { strategy_used := "lightweight_scoring"
        total_hotspots_analyzed := hotspots.length
        platforms_analyzed := platforms'
        selection_timestamp := nowIso
        threshold_score := DEFAULT_CONFIG.threshold_score } }

/-! ## Embedding of `app/services/collection/engine.py`

The per-site fetch is external I/O; a collection run is therefore modelled
relative to a *behaviour* assigning each site code one of three outcomes,
matching the three control paths of `_collect_single_site`:
`noSite` (the `SiteFactory` returned `None`), `raises` (`site.collect` — or
any other statement of the `try` block — raised), or `ok data`
(`site.collect` returned `data`; the pre/post plugin hooks of
`PluginManager` are pass-throughs in the source). -/

/-- Outcome of one site's job, over an abstract record type `α`. -/
inductive SiteOutcome (α : Type) where
  | noSite : SiteOutcome α
  | raises : SiteOutcome α
  | ok (data : List α) : SiteOutcome α
deriving DecidableEq

/-- The per-site config keys used by the claims (`enabled` defaults to
`True` via `cfg.get("enabled", True)`). -/
structure SiteConfig where
  enabled : Bool
deriving DecidableEq

/-- One aggregated entry of `CollectionEngine.collect`'s result list, as
built at the end of `_collect_single_site`. -/
structure CollectEntry (α : Type) where
  site_code : String
  collect_time : String
  data_count : ℕ
  news : List α
deriving DecidableEq

/-- The input accepted for `params["site_code"]`: a comma-separated string
or a list of codes.  (`_get_target_sites` also stringifies any other type;
those inputs are outside this model.) -/
inductive SiteCodeInput where
  | str (s : String) : SiteCodeInput
  | list (l : List String) : SiteCodeInput
deriving DecidableEq

/-- `CollectionEngine._get_target_sites`: all enabled sites for a falsy
input (`None`, `""` or `[]`); otherwise the requested codes (split on commas
and stripped in the string case) filtered down to the enabled site list. -/
def getTargetSites (sitesConfig : List (String × SiteConfig))
    (input : Option SiteCodeInput) : List String :=
  let all_sites := (sitesConfig.filter (·.2.enabled)).map (·.1)
  match input with
  | none => all_sites
  | some (.str s) =>
      if s = "" then all_sites
      else (((s.split (· = ',')).map String.trim)).filter (· ∈ all_sites)
  | some (.list l) =>
      if l = [] then all_sites
      else l.filter (· ∈ all_sites)

/-- `CollectionEngine._collect_single_site`, instrumented with the number of
`site.cleanup()` calls its control path performs.  The source wraps the body
in `try/except/finally`:

* factory returns `None` → early `return None`; `finally` sees a falsy
  `site` and does not call `cleanup` — `(none, 0)`;
* the body raises → `except` returns `None`; `finally` calls `cleanup`
  exactly once — `(none, 1)`;
* fetch succeeds → the entry dict is returned; `finally` calls `cleanup`
  exactly once — `(some entry, 1)`.

No path re-raises, so the job never delivers an exception to
`asyncio.gather`. -/
def collectSingleSite {α : Type} (oc : SiteOutcome α) (sc : String) (now : String) :
    Option (CollectEntry α) × ℕ :=
  match oc with
  | .noSite => (none, 0)
  | .raises => (none, 1)
  | .ok data =>
      (some { site_code := sc, collect_time := now, data_count := data.length, news := data }, 1)

/-- `CollectionEngine.collect`: resolve target sites, run one job per site
(`asyncio.gather(..., return_exceptions=True)`), then keep the truthy
results — a returned entry dict is always truthy, a failed job's `None` is
dropped. -/
def collect {α : Type} (sitesConfig : List (String × SiteConfig))
    (behavior : String → SiteOutcome α) (input : Option SiteCodeInput)
    (now : String) : List (CollectEntry α) :=
  let targets := getTargetSites sitesConfig input
  (targets.map (fun sc => (collectSingleSite (behavior sc) sc now).1)).filterMap id

/-! ## `AsyncRateLimiter`

The class holds `asyncio.Semaphore(max_calls)` and its only method,
`acquire`, performs `await semaphore.acquire()` followed by
`await asyncio.sleep(period / max_calls)`.  No statement of the class (or of
the engine) ever calls `semaphore.release()`, so the semaphore's internal
counter — modelled by `permits` — can only decrease; an `acquire` that finds
no permit suspends with nothing that could ever wake it, modelled as
`none`. -/
structure AsyncRateLimiter where
  max_calls : ℕ
  period : ℚ
  permits : ℕ
deriving DecidableEq

/-- `AsyncRateLimiter.__init__`: the semaphore starts with `max_calls`
permits. -/
def AsyncRateLimiter.init (maxCalls : ℕ) (period : ℚ) : AsyncRateLimiter :=
  { max_calls := maxCalls, period := period, permits := maxCalls }

/-- `AsyncRateLimiter.acquire`: take a permit if one is available (then
sleep `period / max_calls` and return); with zero permits the coroutine
suspends forever, since no release ever happens. -/
def AsyncRateLimiter.acquire (s : AsyncRateLimiter) : Option AsyncRateLimiter :=
  if s.permits = 0 then none else some { s with permits := s.permits - 1 }

/-- `n` successive `acquire()` calls on one limiter instance; `none` as soon
as one of them blocks. -/
def AsyncRateLimiter.acquireN (s : AsyncRateLimiter) : ℕ → Option AsyncRateLimiter
  | 0 => some s
  | n + 1 => (s.acquireN n).bind AsyncRateLimiter.acquire

/-! ## Concrete sample inputs

Used by witness and counterexample theorems. -/

/-- Sample math primitives for concrete evaluations: `log1p` agrees with
`math.log1p` at the only argument where the samples evaluate it (`0`), and
`exp` satisfies the `0 ≤ exp x ≤ 1` hypothesis used by the claims. -/
def mfW : MathFns := { log1p := fun _ => 0, exp := fun _ => 1/2 }

/-- A concrete record used to instantiate hypothesis-carrying theorems. -/
def itemW : Item :=
  { id := some "1", title := some "测试标题来了", url := some "http://x"
    hot := some 12345, collected_at := .missing, site_code := some "weibo" }

/-- A concrete record with an empty (falsy) title, zero hotness, no
timestamp and no site code. -/
def item9 : Item :=
  { id := some "9", title := some "", url := none
    hot := some 0, collected_at := .missing, site_code := none }

/-- A record whose title contains the preferred phrase of `pc10`. -/
def item10 : Item :=
  { id := some "10", title := some "World Cup final tonight", url := none
    hot := some 0, collected_at := .missing, site_code := none }

/-- A platform profile with one content preference and no scoring
weights. -/
def pc10 : PlatformConfig :=
  { content_preferences := ["world cup"], scoring_weights := none
    content_style := "", name := "" }

/-- Platform-specific scoring weights that put all weight on recency. -/
def swRecOnly : ScoringWeights :=
  { hot := some 0, recency := some (1/5), title := some 0
    content_match := some 0, platform := some 0 }

/-- A profile carrying `swRecOnly` and no content preferences. -/
def pcRecOnly : PlatformConfig :=
  { content_preferences := [], scoring_weights := some swRecOnly
    content_style := "", name := "" }

/-- Like `swRecOnly` but with a recency weight that puts the total just
below the threshold. -/
def swRecLow : ScoringWeights :=
  { hot := some 0, recency := some (9/50), title := some 0
    content_match := some 0, platform := some 0 }

/-- A profile carrying `swRecLow`. -/
def pcRecLow : PlatformConfig :=
  { content_preferences := [], scoring_weights := some swRecLow
    content_style := "", name := "" }

/-- Three enabled sites for collection samples. -/
def sitesW : List (String × SiteConfig) := [("a", ⟨true⟩), ("b", ⟨true⟩), ("c", ⟨true⟩)]

/-- A single enabled site for collection samples. -/
def sitesW1 : List (String × SiteConfig) := [("weibo", ⟨true⟩)]

/-- Behaviour: site `a` returns one record, `b` raises, `c` returns two. -/
def behaviorW : String → SiteOutcome ℕ := fun sc =>
  if sc = "a" then .ok [1] else if sc = "b" then .raises else .ok [2, 3]

/-! ## Basic bound lemmas -/

theorem clamp01_nonneg (x : ℚ) : 0 ≤ clamp01 x := le_max_left 0 _

theorem clamp01_le_one (x : ℚ) : clamp01 x ≤ 1 :=
  max_le zero_le_one (min_le_left 1 x)

theorem roundHalfEven_nonneg {x : ℚ} (hx : 0 ≤ x) : 0 ≤ roundHalfEven x := by
  have hf : 0 ≤ ⌊x⌋ := Int.floor_nonneg.mpr hx
  simp only [roundHalfEven]
  split_ifs <;> omega

theorem roundHalfEven_le {x : ℚ} {m : ℤ} (hx : x ≤ m) : roundHalfEven x ≤ m := by
  have hf : ⌊x⌋ ≤ m := by
    have h := Int.floor_le_floor hx
    simpa using h
  have key : 0 < x - (⌊x⌋ : ℚ) → ⌊x⌋ + 1 ≤ m := by
    intro hpos
    rcases lt_or_eq_of_le hf with h | h
    · omega
    · exfalso
      rw [h] at hpos
      have : x ≤ (m : ℚ) := hx
      linarith
  simp only [roundHalfEven]
  split_ifs with h1 h2 h3
  · exact hf
  · exact key (by linarith)
  · exact hf
  · exact key (by linarith [not_lt.mp h1])

theorem pyRound_nonneg {nd : ℕ} {q : ℚ} (h0 : 0 ≤ q) : 0 ≤ pyRound nd q := by
  have hp : (0 : ℚ) < 10 ^ nd := by positivity
  have h := roundHalfEven_nonneg (x := q * 10 ^ nd) (by positivity)
  unfold pyRound
  have : (0 : ℚ) ≤ (roundHalfEven (q * 10 ^ nd) : ℚ) := by exact_mod_cast h
  exact div_nonneg this hp.le

theorem pyRound_le_one {nd : ℕ} {q : ℚ} (h1 : q ≤ 1) : pyRound nd q ≤ 1 := by
  have hp : (0 : ℚ) < 10 ^ nd := by positivity
  have hq : q * 10 ^ nd ≤ ((10 ^ nd : ℤ) : ℚ) := by
    push_cast
    nlinarith
  have h := roundHalfEven_le hq
  unfold pyRound
  rw [div_le_one hp]
  calc (roundHalfEven (q * 10 ^ nd) : ℚ) ≤ ((10 ^ nd : ℤ) : ℚ) := by exact_mod_cast h
    _ = 10 ^ nd := by push_cast; ring

theorem log1pNormHot_nonneg (mf : MathFns) (hot : Option ℚ) : 0 ≤ log1pNormHot mf hot :=
  clamp01_nonneg _

theorem log1pNormHot_le_one (mf : MathFns) (hot : Option ℚ) : log1pNormHot mf hot ≤ 1 :=
  clamp01_le_one _

theorem recencyScore_bounds {mf : MathFns}
    (hexp : ∀ x : ℚ, x ≤ 0 → 0 ≤ mf.exp x ∧ mf.exp x ≤ 1)
    (now : ℚ) (c : CollectedAt) (decay : ℚ) :
    0 ≤ recencyScore mf now c decay ∧ recencyScore mf now c decay ≤ 1 := by
  rcases c with _ | _ | t
  · exact ⟨by norm_num [recencyScore], by norm_num [recencyScore]⟩
  · exact ⟨by norm_num [recencyScore], by norm_num [recencyScore]⟩
  · have harg : -max 0 ((now - t) / 3600) / max 1 decay ≤ 0 := by
      apply div_nonpos_of_nonpos_of_nonneg
      · simp [le_max_iff]
      · exact le_trans zero_le_one (le_max_left 1 decay)
    simpa [recencyScore] using hexp _ harg

theorem titleCountFold_nonneg (title : String) :
    ∀ (l : List String) (acc : ℚ), 0 ≤ acc →
      0 ≤ l.foldl (fun acc kw => if strIn kw title then acc + 1 else acc) acc := by
  intro l
  induction l with
  | nil => intro acc h; simpa using h
  | cons kw rest ih =>
      intro acc h
      simp only [List.foldl_cons]
      split_ifs
      · exact ih _ (by linarith)
      · exact ih _ h

theorem titleKeywordScore_nonneg (title : String) : 0 ≤ titleKeywordScore title := by
  unfold titleKeywordScore
  split_ifs with h0
  · exact le_refl 0
  · have base := titleCountFold_nonneg title titleKws 0 (le_refl 0)
    apply le_min (by norm_num)
    split_ifs with hlen
    · positivity
    · positivity

theorem titleKeywordScore_le_one (title : String) : titleKeywordScore title ≤ 1 := by
  unfold titleKeywordScore
  split_ifs with h0
  · norm_num
  · exact min_le_left 1 _

theorem lookup_rat_bounds {lo hi : ℚ} :
    ∀ (l : List (String × ℚ)), (∀ p ∈ l, lo ≤ p.2 ∧ p.2 ≤ hi) →
      ∀ (s : String) (v : ℚ), l.lookup s = some v → lo ≤ v ∧ v ≤ hi := by
  intro l
  induction l with
  | nil => intro _ s v hv; simp [List.lookup] at hv
  | cons p rest ih =>
      intro hb s v hv
      rcases hk : s == p.1 with _ | _
      · simp only [List.lookup, hk] at hv
        exact ih (fun q hq => hb q (List.mem_cons_of_mem p hq)) s v hv
      · simp only [List.lookup, hk] at hv
        obtain rfl : p.2 = v := by simpa using hv
        exact hb p (List.mem_cons_self p rest)

theorem defaultPlatformWeights_bounds :
    ∀ p ∈ DEFAULT_CONFIG.platform_weights, (4 : ℚ)/5 ≤ p.2 ∧ p.2 ≤ 1 := by
  intro p hp
  simp only [DEFAULT_CONFIG, List.mem_cons, List.not_mem_nil, or_false] at hp
  rcases hp with rfl | rfl | rfl | rfl <;> norm_num

theorem platformWeight_default_bounds (sc : Option String) :
    (4 : ℚ)/5 ≤ platformWeight sc DEFAULT_CONFIG ∧ platformWeight sc DEFAULT_CONFIG ≤ 1 := by
  have hdef : DEFAULT_CONFIG.platform_weights.lookup "default" = some (4/5) := rfl
  rcases sc with _ | s
  · simp only [platformWeight, dictGet, hdef, Option.getD_some]
    norm_num
  · simp only [platformWeight]
    rcases hl : DEFAULT_CONFIG.platform_weights.lookup s with _ | v
    · simp only [hl, Option.orElse, hdef, Option.getD_some]
      norm_num
    · have hv := lookup_rat_bounds DEFAULT_CONFIG.platform_weights
        defaultPlatformWeights_bounds s v hl
      simpa [hl, Option.orElse] using hv

/-! ## Analysis of `_content_match_score` -/

/-- Word overlap between one (lower-cased) preference and the title, as in
the loop body of `_content_match_score`. -/
def prefOverlap (title p : String) : ℕ :=
  wordOverlap (pyWords (pyLower p)) (pyWords title)

/-- The partial-overlap contribution for an overlap of `k` words:
`min(0.8, k * 0.2)` for positive `k`, `0` otherwise. -/
def overlapScore (k : ℕ) : ℚ :=
  if 0 < k then min (4/5) ((k : ℚ) * (1/5)) else 0

/-- The `match_score` contribution of a single preference. -/
def prefOneScore (title p : String) : ℚ :=
  if strIn (pyLower p) title then 1 else overlapScore (prefOverlap title p)

/-- Some preference is an exact (lower-cased) substring of the title. -/
def hasExactPrefMatch (title : String) (prefs : List String) : Bool :=
  prefs.any (fun p => strIn (pyLower p) title)

/-- The largest word overlap between any preference and the title. -/
def maxWordOverlap (title : String) (prefs : List String) : ℕ :=
  (prefs.map (prefOverlap title)).foldl max 0

theorem overlapScore_nonneg (k : ℕ) : 0 ≤ overlapScore k := by
  unfold overlapScore
  split_ifs
  · exact le_min (by norm_num) (by positivity)
  · exact le_refl 0

theorem overlapScore_le (k : ℕ) : overlapScore k ≤ 4/5 := by
  unfold overlapScore
  split_ifs
  · exact min_le_left _ _
  · norm_num

theorem overlapScore_mono : Monotone overlapScore := by
  intro a b hab
  unfold overlapScore
  split_ifs with ha hb
  · apply min_le_min (le_refl _)
    have : (a : ℚ) ≤ b := by exact_mod_cast hab
    nlinarith
  · omega
  · exact le_min (by norm_num) (by positivity)
  · exact le_refl 0

theorem prefOneScore_nonneg (title p : String) : 0 ≤ prefOneScore title p := by
  unfold prefOneScore
  split_ifs
  · norm_num
  · exact overlapScore_nonneg _

theorem prefOneScore_le_one (title p : String) : prefOneScore title p ≤ 1 := by
  unfold prefOneScore
  split_ifs
  · exact le_refl 1
  · exact (overlapScore_le _).trans (by norm_num)

theorem le_foldl_max : ∀ (l : List ℚ) (acc : ℚ), acc ≤ l.foldl max acc := by
  intro l
  induction l with
  | nil => intro acc; simp
  | cons x rest ih =>
      intro acc
      calc acc ≤ max acc x := le_max_left _ _
        _ ≤ rest.foldl max (max acc x) := ih _

theorem foldl_max_le {c : ℚ} :
    ∀ (l : List ℚ) (acc : ℚ), acc ≤ c → (∀ x ∈ l, x ≤ c) → l.foldl max acc ≤ c := by
  intro l
  induction l with
  | nil => intro acc hacc _; simpa using hacc
  | cons x rest ih =>
      intro acc hacc hmem
      simp only [List.foldl_cons]
      exact ih _ (max_le hacc (hmem x (List.mem_cons_self x rest)))
        (fun y hy => hmem y (List.mem_cons_of_mem x hy))

theorem mem_le_foldl_max {x : ℚ} :
    ∀ {l : List ℚ} (_ : x ∈ l) (acc : ℚ), x ≤ l.foldl max acc := by
  intro l
  induction l with
  | nil => intro h; simp at h
  | cons y rest ih =>
      intro h acc
      rcases List.mem_cons.mp h with rfl | h
      · exact le_trans (le_max_right acc x) (le_foldl_max rest _)
      · exact ih h _

theorem foldl_max_map_mono {g : ℕ → ℚ} (hg : Monotone g) :
    ∀ (ks : List ℕ) (a : ℕ), (ks.map g).foldl max (g a) = g (ks.foldl max a) := by
  intro ks
  induction ks with
  | nil => intro a; simp
  | cons k rest ih =>
      intro a
      simp only [List.map_cons, List.foldl_cons]
      rw [← hg.map_max, ih]

theorem contentMatchLoop_eq (title : String) :
    ∀ (prefs : List String) (acc : ℚ), 0 ≤ acc →
      contentMatchLoop title prefs acc = (prefs.map (prefOneScore title)).foldl max acc := by
  intro prefs
  induction prefs with
  | nil => intro acc _; rfl
  | cons p rest ih =>
      intro acc hacc
      simp only [contentMatchLoop, List.map_cons, List.foldl_cons, prefOneScore]
      rcases hin : strIn (pyLower p) title with _ | _
      · simp only [hin, Bool.false_eq_true, if_false]
        by_cases hov : 0 < wordOverlap (pyWords (pyLower p)) (pyWords title)
        · rw [if_pos hov]
          rw [ih _ (le_max_iff.mpr (Or.inl hacc))]
          congr 1
          simp [overlapScore, prefOverlap, hov]
        · rw [if_neg hov]
          rw [ih _ hacc]
          congr 1
          have : wordOverlap (pyWords (pyLower p)) (pyWords title) = 0 := by omega
          simp [overlapScore, prefOverlap, this, max_eq_left hacc]
      · simp only [hin, if_true]
        exact ih _ (le_max_iff.mpr (Or.inl hacc))

theorem contentMatchLoop_of_exact {title : String} {prefs : List String}
    (hex : hasExactPrefMatch title prefs = true) :
    contentMatchLoop title prefs 0 = 1 := by
  rw [contentMatchLoop_eq title prefs 0 (le_refl 0)]
  obtain ⟨p, hp, hpin⟩ := List.any_eq_true.mp hex
  apply le_antisymm
  · exact foldl_max_le _ _ (by norm_num)
      (fun x hx => by
        obtain ⟨q, _, rfl⟩ := List.mem_map.mp hx
        exact prefOneScore_le_one title q)
  · have h1 : prefOneScore title p = 1 := by simp [prefOneScore, hpin]
    have : prefOneScore title p ∈ prefs.map (prefOneScore title) := List.mem_map_of_mem _ hp
    rw [h1] at this
    exact mem_le_foldl_max this 0

theorem contentMatchLoop_of_no_exact {title : String} {prefs : List String}
    (hex : hasExactPrefMatch title prefs = false) :
    contentMatchLoop title prefs 0 = overlapScore (maxWordOverlap title prefs) := by
  rw [contentMatchLoop_eq title prefs 0 (le_refl 0)]
  have hnone : ∀ p ∈ prefs, strIn (pyLower p) title = false := by
    intro p hp
    by_contra hc
    have : hasExactPrefMatch title prefs = true :=
      List.any_eq_true.mpr ⟨p, hp, by simpa using hc⟩
    rw [this] at hex
    exact Bool.true_eq_false.mp hex
  have hmap : prefs.map (prefOneScore title) =
      (prefs.map (prefOverlap title)).map overlapScore := by
    rw [List.map_map]
    apply List.map_congr_left
    intro p hp
    simp [prefOneScore, hnone p hp]
  rw [hmap]
  have h0 : (0 : ℚ) = overlapScore 0 := by simp [overlapScore]
  rw [h0, foldl_max_map_mono overlapScore_mono]
  rfl

/-- Full case analysis of `_content_match_score` for a truthy platform
config with a nonempty preference list. -/
theorem contentMatchScore_cases (item : Item) (c : PlatformConfig)
    (hne : c.content_preferences ≠ []) :
    contentMatchScore item (some c) =
      (if hasExactPrefMatch (pyLower (item.title.getD "")) c.content_preferences then (1 : ℚ)
       else if 0 < maxWordOverlap (pyLower (item.title.getD "")) c.content_preferences then
         min (4/5) ((maxWordOverlap (pyLower (item.title.getD "")) c.content_preferences : ℚ) * (1/5))
       else if generalKeywords.any (fun k => strIn k (pyLower (item.title.getD ""))) then 3/10
       else 1/10) := by
  simp only [contentMatchScore, if_neg hne]
  rcases hex : hasExactPrefMatch (pyLower (item.title.getD "")) c.content_preferences with _ | _
  · rw [contentMatchLoop_of_no_exact hex]
    simp only [Bool.false_eq_true, if_false]
    by_cases hK : 0 < maxWordOverlap (pyLower (item.title.getD "")) c.content_preferences
    · have hms : overlapScore (maxWordOverlap (pyLower (item.title.getD "")) c.content_preferences) =
          min (4/5) ((maxWordOverlap (pyLower (item.title.getD "")) c.content_preferences : ℚ) * (1/5)) := by
        simp [overlapScore, hK]
      rw [hms, if_pos hK]
      have hpos : (0:ℚ) <
          min (4/5) ((maxWordOverlap (pyLower (item.title.getD "")) c.content_preferences : ℚ) * (1/5)) := by
        apply lt_min (by norm_num)
        have : (1:ℚ) ≤ (maxWordOverlap (pyLower (item.title.getD "")) c.content_preferences : ℚ) := by
          exact_mod_cast hK
        nlinarith
      rw [if_neg (ne_of_gt hpos)]
    · have hK0 : maxWordOverlap (pyLower (item.title.getD "")) c.content_preferences = 0 := by omega
      rw [hK0]
      simp [overlapScore]
  · rw [contentMatchLoop_of_exact hex]
    norm_num

theorem contentMatchScore_pos (item : Item) (pc : Option PlatformConfig) :
    0 < contentMatchScore item pc := by
  rcases pc with _ | c
  · norm_num [contentMatchScore]
  · by_cases hne : c.content_preferences = []
    · simp [contentMatchScore, hne]
    · rw [contentMatchScore_cases item c hne]
      split_ifs with h1 h2 h3
      · norm_num
      · apply lt_min (by norm_num)
        have : (1:ℚ) ≤ (maxWordOverlap (pyLower (item.title.getD "")) c.content_preferences : ℚ) := by
          exact_mod_cast h2
        nlinarith
      · norm_num
      · norm_num

theorem contentMatchScore_le_one (item : Item) (pc : Option PlatformConfig) :
    contentMatchScore item pc ≤ 1 := by
  rcases pc with _ | c
  · norm_num [contentMatchScore]
  · by_cases hne : c.content_preferences = []
    · simp only [contentMatchScore, if_pos hne]
      norm_num
    · rw [contentMatchScore_cases item c hne]
      split_ifs with h1 h2 h3
      · exact le_refl 1
      · exact (min_le_left _ _).trans (by norm_num)
      · norm_num
      · norm_num

theorem contentMatchScore_lb (item : Item) (c : PlatformConfig)
    (hne : c.content_preferences ≠ []) :
    1/10 ≤ contentMatchScore item (some c) := by
  rw [contentMatchScore_cases item c hne]
  split_ifs with h1 h2 h3
  · norm_num
  · apply le_min (by norm_num)
    have : (1:ℚ) ≤ (maxWordOverlap (pyLower (item.title.getD "")) c.content_preferences : ℚ) := by
      exact_mod_cast h2
    nlinarith
  · norm_num
  · norm_num

/-! ## Claim C1: score and breakdown bounds -/

/-- **C1.** For every record and every channel profile, the scoring
function's output is bounded: with the engine's configuration
(`DEFAULT_CONFIG`, the `cfg` passed by both call sites of `_score_item`),
the combined total and each component of the breakdown — `hot` (hotness),
`recency`, `title` (title appeal), `content_match` (when present) and
`platform` (channel weight) — lie in `[0, 1]`.  The hypothesis on `mf.exp`
is the standard property `0 ≤ e^x ≤ 1` for `x ≤ 0` of `math.exp`. -/
theorem C1_score_breakdown_bounds (mf : MathFns) (now : ℚ) (item : Item)
    (pc : Option PlatformConfig)
    (hexp : ∀ x : ℚ, x ≤ 0 → 0 ≤ mf.exp x ∧ mf.exp x ≤ 1) :
    (0 ≤ (scoreItem mf now item DEFAULT_CONFIG pc).1 ∧
      (scoreItem mf now item DEFAULT_CONFIG pc).1 ≤ 1) ∧
    (0 ≤ (scoreItem mf now item DEFAULT_CONFIG pc).2.hot ∧
      (scoreItem mf now item DEFAULT_CONFIG pc).2.hot ≤ 1) ∧
    (0 ≤ (scoreItem mf now item DEFAULT_CONFIG pc).2.recency ∧
      (scoreItem mf now item DEFAULT_CONFIG pc).2.recency ≤ 1) ∧
    (0 ≤ (scoreItem mf now item DEFAULT_CONFIG pc).2.title ∧
      (scoreItem mf now item DEFAULT_CONFIG pc).2.title ≤ 1) ∧
    (0 ≤ (scoreItem mf now item DEFAULT_CONFIG pc).2.platform ∧
      (scoreItem mf now item DEFAULT_CONFIG pc).2.platform ≤ 1) ∧
    (∀ v : ℚ, (scoreItem mf now item DEFAULT_CONFIG pc).2.content_match = some v →
      0 ≤ v ∧ v ≤ 1) := by
  have hrec := recencyScore_bounds hexp now item.collected_at DEFAULT_CONFIG.decay_hours
  have hpw := platformWeight_default_bounds item.site_code
  have hpw0 : 0 ≤ platformWeight item.site_code DEFAULT_CONFIG := by linarith [hpw.1]
  have hhot0 := log1pNormHot_nonneg mf item.hot
  have hhot1 := log1pNormHot_le_one mf item.hot
  have htit0 := titleKeywordScore_nonneg (item.title.getD "")
  have htit1 := titleKeywordScore_le_one (item.title.getD "")
  have hcm0 : 0 ≤ contentMatchScore item pc := le_of_lt (contentMatchScore_pos item pc)
  have hcm1 := contentMatchScore_le_one item pc
  rcases pc with _ | c
  · simp only [scoreItem]
    refine ⟨⟨clamp01_nonneg _, clamp01_le_one _⟩,
      ⟨pyRound_nonneg hhot0, pyRound_le_one hhot1⟩,
      ⟨pyRound_nonneg hrec.1, pyRound_le_one hrec.2⟩,
      ⟨pyRound_nonneg htit0, pyRound_le_one htit1⟩,
      ⟨pyRound_nonneg hpw0, pyRound_le_one hpw.2⟩, ?_⟩
    intro v hv
    simp at hv
  · rcases hsw : c.scoring_weights with _ | sw
    · simp only [scoreItem, hsw]
      refine ⟨⟨clamp01_nonneg _, clamp01_le_one _⟩,
        ⟨pyRound_nonneg hhot0, pyRound_le_one hhot1⟩,
        ⟨pyRound_nonneg hrec.1, pyRound_le_one hrec.2⟩,
        ⟨pyRound_nonneg htit0, pyRound_le_one htit1⟩,
        ⟨pyRound_nonneg hpw0, pyRound_le_one hpw.2⟩, ?_⟩
      intro v hv
      simp at hv
    · simp only [scoreItem, hsw]
      refine ⟨⟨clamp01_nonneg _, clamp01_le_one _⟩,
        ⟨pyRound_nonneg hhot0, pyRound_le_one hhot1⟩,
        ⟨pyRound_nonneg hrec.1, pyRound_le_one hrec.2⟩,
        ⟨pyRound_nonneg htit0, pyRound_le_one htit1⟩,
        ⟨pyRound_nonneg hpw0, pyRound_le_one hpw.2⟩, ?_⟩
      intro v hv
      simp only [Option.some.injEq] at hv
      subst hv
      exact ⟨pyRound_nonneg hcm0, pyRound_le_one hcm1⟩

theorem C1_score_breakdown_bounds_witness :
    (0 ≤ (scoreItem mfW 0 itemW DEFAULT_CONFIG none).1 ∧
      (scoreItem mfW 0 itemW DEFAULT_CONFIG none).1 ≤ 1) ∧
    (0 ≤ (scoreItem mfW 0 itemW DEFAULT_CONFIG none).2.hot ∧
      (scoreItem mfW 0 itemW DEFAULT_CONFIG none).2.hot ≤ 1) ∧
    (0 ≤ (scoreItem mfW 0 itemW DEFAULT_CONFIG none).2.recency ∧
      (scoreItem mfW 0 itemW DEFAULT_CONFIG none).2.recency ≤ 1) ∧
    (0 ≤ (scoreItem mfW 0 itemW DEFAULT_CONFIG none).2.title ∧
      (scoreItem mfW 0 itemW DEFAULT_CONFIG none).2.title ≤ 1) ∧
    (0 ≤ (scoreItem mfW 0 itemW DEFAULT_CONFIG none).2.platform ∧
      (scoreItem mfW 0 itemW DEFAULT_CONFIG none).2.platform ≤ 1) ∧
    (∀ v : ℚ, (scoreItem mfW 0 itemW DEFAULT_CONFIG none).2.content_match = some v →
      0 ≤ v ∧ v ≤ 1) :=
  C1_score_breakdown_bounds mfW 0 itemW none
    (fun x _ => by constructor <;> norm_num [mfW])

/-! ## Claim C10: characterization of the content-match component -/

/-- **C10.** The content-match component is never `0`: with no platform
configuration or no content preferences it is exactly `0.5`; otherwise it
lies in `[0.1, 1]`, where an exact substring match of a preferred phrase
scores `1.0`, partial word overlap scores `min(0.8, 0.2 * overlap)` with
`overlap` the largest number of overlapping words over all preferences, a
title containing a generic current-events marker gets the floor `0.3`, and
every other title gets the floor `0.1`. -/
theorem C10_content_match_characterization (item : Item) (pc : Option PlatformConfig) :
    contentMatchScore item pc ≠ 0 ∧
    contentMatchScore item none = 1/2 ∧
    (∀ c : PlatformConfig, pc = some c → c.content_preferences = [] →
      contentMatchScore item pc = 1/2) ∧
    (∀ c : PlatformConfig, pc = some c → c.content_preferences ≠ [] →
      (1/10 ≤ contentMatchScore item pc ∧ contentMatchScore item pc ≤ 1) ∧
      (hasExactPrefMatch (pyLower (item.title.getD "")) c.content_preferences = true →
        contentMatchScore item pc = 1) ∧
      (hasExactPrefMatch (pyLower (item.title.getD "")) c.content_preferences = false →
        0 < maxWordOverlap (pyLower (item.title.getD "")) c.content_preferences →
        contentMatchScore item pc =
          min (4/5) ((maxWordOverlap (pyLower (item.title.getD "")) c.content_preferences : ℚ) * (1/5))) ∧
      (hasExactPrefMatch (pyLower (item.title.getD "")) c.content_preferences = false →
        maxWordOverlap (pyLower (item.title.getD "")) c.content_preferences = 0 →
        (generalKeywords.any (fun k => strIn k (pyLower (item.title.getD ""))) = true →
          contentMatchScore item pc = 3/10) ∧
        (generalKeywords.any (fun k => strIn k (pyLower (item.title.getD ""))) = false →
          contentMatchScore item pc = 1/10))) := by
  refine ⟨ne_of_gt (contentMatchScore_pos item pc), by norm_num [contentMatchScore], ?_, ?_⟩
  · rintro c rfl hnil
    simp [contentMatchScore, hnil]
  · rintro c rfl hne
    refine ⟨⟨contentMatchScore_lb item c hne, contentMatchScore_le_one item (some c)⟩, ?_, ?_, ?_⟩
    · intro hex
      rw [contentMatchScore_cases item c hne, if_pos hex]
    · intro hex hK
      rw [contentMatchScore_cases item c hne]
      rw [if_neg (by simp [hex]), if_pos hK]
    · intro hex hK
      constructor
      · intro hgen
        rw [contentMatchScore_cases item c hne]
        rw [if_neg (by simp [hex]), if_neg (by omega), if_pos hgen]
      · intro hgen
        rw [contentMatchScore_cases item c hne]
        rw [if_neg (by simp [hex]), if_neg (by omega), if_neg (by simp [hgen])]

theorem C10_content_match_characterization_witness :
    contentMatchScore item10 (some pc10) = 1 :=
  (((C10_content_match_characterization item10 (some pc10)).2.2.2 pc10 rfl
    (by simp [pc10])).2.1) (by decide)

/-! ## Claim C8: neutral defaults on anomalous input -/

/-- **C8.** Scoring is a total function (it never raises): an unparseable
hotness value is scored exactly as a hotness value of `0` (both at the
component and at the whole-score level), and a missing `collected_at`
yields a recency component of exactly `0.5`. -/
theorem C8_anomalous_input_defaults (mf : MathFns) (now : ℚ) (item : Item)
    (cfg : EngineConfig) (pc : Option PlatformConfig) (decay : ℚ) :
    log1pNormHot mf none = log1pNormHot mf (some 0) ∧
    scoreItem mf now { item with hot := none } cfg pc =
      scoreItem mf now { item with hot := some 0 } cfg pc ∧
    recencyScore mf now CollectedAt.missing decay = 1/2 := by
  refine ⟨rfl, ?_, rfl⟩
  rcases pc with _ | ⟨prefs, swOpt, style, nm⟩
  · rfl
  · rcases swOpt with _ | sw <;> rfl

/-! ## Collection lemmas -/

theorem mem_collect_iff {α : Type} (cfg : List (String × SiteConfig))
    (behavior : String → SiteOutcome α) (input : Option SiteCodeInput)
    (now : String) (e : CollectEntry α) :
    e ∈ collect cfg behavior input now ↔
      ∃ sc ∈ getTargetSites cfg input, (collectSingleSite (behavior sc) sc now).1 = some e := by
  unfold collect
  constructor
  · intro he
    obtain ⟨x, hx, hxe⟩ := List.mem_filterMap.mp he
    obtain ⟨sc, hsc, rfl⟩ := List.mem_map.mp hx
    exact ⟨sc, hsc, hxe⟩
  · rintro ⟨sc, hsc, hse⟩
    exact List.mem_filterMap.mpr
      ⟨(collectSingleSite (behavior sc) sc now).1, List.mem_map_of_mem _ hsc, hse⟩

/-! ## Claim C6: the rate limiter's `acquire` does not always return -/

/-- **C6 (refuting the claim).**  `AsyncRateLimiter.acquire` wraps
`asyncio.Semaphore(max_calls).acquire()` followed by a sleep, and neither
the class nor any caller ever releases the semaphore.  On a limiter with
`max_calls = 5, period = 60` (the engine's per-site configuration), the
first five `acquire()` calls return but the sixth blocks forever — against
the claim that every `acquire()` eventually returns. -/
theorem C6_sixth_acquire_blocks_forever :
    (AsyncRateLimiter.acquireN (AsyncRateLimiter.init 5 60) 5).isSome = true ∧
    AsyncRateLimiter.acquireN (AsyncRateLimiter.init 5 60) 6 = none := by
  constructor <;> rfl

/-! ## Claim C5: cleanup exactly once per job -/

/-- **C5.** In every collection job whose site adapter was successfully
constructed (the factory did not return `None`), `site.cleanup()` runs
exactly once, whether the fetch returned normally or raised. -/
theorem C5_cleanup_exactly_once {α : Type} (oc : SiteOutcome α) (sc now : String)
    (h : oc ≠ SiteOutcome.noSite) :
    (collectSingleSite oc sc now).2 = 1 := by
  rcases oc with _ | _ | data
  · exact absurd rfl h
  · rfl
  · rfl

theorem C5_cleanup_exactly_once_witness :
    (collectSingleSite (SiteOutcome.raises : SiteOutcome ℕ) "weibo" "t").2 = 1 ∧
    (collectSingleSite (SiteOutcome.ok [1, 2]) "weibo" "t").2 = 1 :=
  ⟨C5_cleanup_exactly_once _ "weibo" "t" (by simp),
   C5_cleanup_exactly_once _ "weibo" "t" (by simp)⟩

/-! ## Claim C4: per-source failure isolation -/

/-- **C4.** A source job that raises is converted to no-data at the job
boundary: every non-failing source's entry still appears in the aggregate,
a raising source contributes no entry, and if every resolved source raises
the aggregate is the empty list (no exception reaches the caller — each
job's value is an `Option`, never an exception). -/
theorem C4_failure_isolation {α : Type} (cfg : List (String × SiteConfig))
    (behavior : String → SiteOutcome α) (input : Option SiteCodeInput) (now : String) :
    (∀ (sc : String) (data : List α), sc ∈ getTargetSites cfg input →
      behavior sc = SiteOutcome.ok data →
      ({ site_code := sc, collect_time := now, data_count := data.length, news := data } :
        CollectEntry α) ∈ collect cfg behavior input now) ∧
    (∀ sc : String, sc ∈ getTargetSites cfg input → behavior sc = SiteOutcome.raises →
      ∀ e ∈ collect cfg behavior input now, e.site_code ≠ sc) ∧
    ((∀ sc ∈ getTargetSites cfg input, behavior sc = SiteOutcome.raises) →
      collect cfg behavior input now = []) := by
  refine ⟨?_, ?_, ?_⟩
  · intro sc data hsc hok
    exact (mem_collect_iff cfg behavior input now _).mpr ⟨sc, hsc, by rw [hok]; rfl⟩
  · intro sc hsc hrs e he heq
    obtain ⟨sc', hsc', hse⟩ := (mem_collect_iff cfg behavior input now e).mp he
    rcases hb : behavior sc' with _ | _ | data <;> rw [hb] at hse
    · exact Option.noConfusion hse
    · exact Option.noConfusion hse
    · have hsite : e.site_code = sc' := by
        have h2 := Option.some.inj hse
        rw [← h2]
      rw [heq] at hsite
      rw [← hsite] at hb
      rw [hb] at hrs
      exact SiteOutcome.noConfusion hrs
  · intro hall
    unfold collect
    rw [List.filterMap_eq_nil_iff]
    intro x hx
    obtain ⟨sc, hsc, rfl⟩ := List.mem_map.mp hx
    rw [hall sc hsc]
    rfl

theorem C4_failure_isolation_witness :
    ({ site_code := "a", collect_time := "t", data_count := 1, news := [1] } :
      CollectEntry ℕ) ∈ collect sitesW behaviorW none "t" ∧
    ({ site_code := "c", collect_time := "t", data_count := 2, news := [2, 3] } :
      CollectEntry ℕ) ∈ collect sitesW behaviorW none "t" :=
  ⟨(C4_failure_isolation sitesW behaviorW none "t").1 "a" [1] (by decide) (by decide),
   (C4_failure_isolation sitesW behaviorW none "t").1 "c" [2, 3] (by decide) (by decide)⟩

/-! ## Claim C7: what the aggregate contains -/

/-- **C7 (counterexample).**  A job that succeeds with an *empty* record
set still contributes an entry to the aggregate (the returned dict is
truthy), so the aggregate does not contain entries only for non-empty
jobs: with one enabled site whose fetch returns `[]`, the result is a
one-entry list whose entry has `news = []` and `data_count = 0`. -/
theorem C7_empty_job_is_aggregated :
    collect sitesW1 (fun _ => SiteOutcome.ok ([] : List ℕ)) none "t" =
      [{ site_code := "weibo", collect_time := "t", data_count := 0, news := [] }] ∧
    ({ site_code := "weibo", collect_time := "t", data_count := 0, news := ([] : List ℕ) } :
      CollectEntry ℕ).news = [] := by
  constructor <;> rfl

/-- **C7 (amended).**  The aggregate contains exactly one entry per
*successful* job — empty record sets included — and each entry is tagged
with its source code, the collection timestamp, and an item count equal to
the number of records it carries. -/
theorem C7_aggregate_entries {α : Type} (cfg : List (String × SiteConfig))
    (behavior : String → SiteOutcome α) (input : Option SiteCodeInput) (now : String) :
    (∀ e ∈ collect cfg behavior input now,
      ∃ (sc : String) (data : List α), sc ∈ getTargetSites cfg input ∧
        behavior sc = SiteOutcome.ok data ∧
        e = { site_code := sc, collect_time := now, data_count := data.length, news := data }) ∧
    (∀ (sc : String) (data : List α), sc ∈ getTargetSites cfg input →
      behavior sc = SiteOutcome.ok data →
      ({ site_code := sc, collect_time := now, data_count := data.length, news := data } :
        CollectEntry α) ∈ collect cfg behavior input now) ∧
    (∀ e ∈ collect cfg behavior input now, e.data_count = e.news.length) := by
  have hchar : ∀ e ∈ collect cfg behavior input now,
      ∃ (sc : String) (data : List α), sc ∈ getTargetSites cfg input ∧
        behavior sc = SiteOutcome.ok data ∧
        e = { site_code := sc, collect_time := now, data_count := data.length, news := data } := by
    intro e he
    obtain ⟨sc, hsc, hse⟩ := (mem_collect_iff cfg behavior input now e).mp he
    rcases hb : behavior sc with _ | _ | data <;> rw [hb] at hse
    · exact Option.noConfusion hse
    · exact Option.noConfusion hse
    · exact ⟨sc, data, hsc, hb, (Option.some.inj hse).symm⟩
  refine ⟨hchar, ?_, ?_⟩
  · intro sc data hsc hok
    exact (mem_collect_iff cfg behavior input now _).mpr ⟨sc, hsc, by rw [hok]; rfl⟩
  · intro e he
    obtain ⟨sc, data, _, _, rfl⟩ := hchar e he
    rfl

theorem C7_aggregate_entries_witness :
    ({ site_code := "weibo", collect_time := "t", data_count := 0, news := ([] : List ℕ) } :
      CollectEntry ℕ) ∈ collect sitesW1 (fun _ => SiteOutcome.ok ([] : List ℕ)) none "t" :=
  (C7_aggregate_entries sitesW1 (fun _ => SiteOutcome.ok ([] : List ℕ)) none "t").2.1
    "weibo" [] (by decide) rfl

/-! ## Selection filtering and sorting lemmas -/

theorem mem_preSort_iff (mf : MathFns) (now : ℚ)
    (profiles : List (String × PlatformConfig)) (hotspots : List Item)
    (platform : String) (r : SelectionResult) :
    r ∈ platformResultsPreSort mf now profiles hotspots platform ↔
      ∃ h ∈ hotspots,
        DEFAULT_CONFIG.threshold_score ≤
          (scoreItem mf now h DEFAULT_CONFIG (profilesGet profiles platform)).1 ∧
        r = mkSelectionResult (profilesGet profiles platform) h
          (scoreItem mf now h DEFAULT_CONFIG (profilesGet profiles platform)).1
          (scoreItem mf now h DEFAULT_CONFIG (profilesGet profiles platform)).2 := by
  unfold platformResultsPreSort
  rw [List.mem_filterMap]
  constructor
  · rintro ⟨h, hh, hsome⟩
    dsimp only at hsome
    by_cases hle : DEFAULT_CONFIG.threshold_score ≤
        (scoreItem mf now h DEFAULT_CONFIG (profilesGet profiles platform)).1
    · rw [if_pos hle] at hsome
      exact ⟨h, hh, hle, (Option.some.inj hsome).symm⟩
    · rw [if_neg hle] at hsome
      exact Option.noConfusion hsome
  · rintro ⟨h, hh, hle, rfl⟩
    refine ⟨h, hh, ?_⟩
    dsimp only
    rw [if_pos hle]

theorem byTotalDesc_trans : ∀ (a b c : SelectionResult),
    byTotalDesc a b → byTotalDesc b c → byTotalDesc a c := by
  intro a b c hab hbc
  simp only [byTotalDesc, decide_eq_true_eq] at *
  exact le_trans hbc hab

theorem byTotalDesc_total : ∀ (a b : SelectionResult),
    byTotalDesc a b || byTotalDesc b a := by
  intro a b
  simp only [byTotalDesc, Bool.or_eq_true, decide_eq_true_eq]
  exact le_total _ _

/-! ## Claim C2: the threshold filter -/

/-- **C2.** A record appears in the per-channel output exactly when its
total score is at least the configured threshold (`threshold_score = 0.1`,
compared with `score >= threshold_score`, so a record scoring exactly the
threshold is included and one scoring strictly below is excluded); the
output is a permutation of the list of surviving records. -/
theorem C2_threshold_filter (mf : MathFns) (now : ℚ)
    (profiles : List (String × PlatformConfig)) (hotspots : List Item)
    (platform : String) :
    (∀ h ∈ hotspots,
      DEFAULT_CONFIG.threshold_score ≤
        (scoreItem mf now h DEFAULT_CONFIG (profilesGet profiles platform)).1 →
      mkSelectionResult (profilesGet profiles platform) h
        (scoreItem mf now h DEFAULT_CONFIG (profilesGet profiles platform)).1
        (scoreItem mf now h DEFAULT_CONFIG (profilesGet profiles platform)).2 ∈
        analyzePlatformHotspots mf now profiles hotspots platform) ∧
    (∀ r ∈ analyzePlatformHotspots mf now profiles hotspots platform,
      ∃ h ∈ hotspots,
        DEFAULT_CONFIG.threshold_score ≤
          (scoreItem mf now h DEFAULT_CONFIG (profilesGet profiles platform)).1 ∧
        r = mkSelectionResult (profilesGet profiles platform) h
          (scoreItem mf now h DEFAULT_CONFIG (profilesGet profiles platform)).1
          (scoreItem mf now h DEFAULT_CONFIG (profilesGet profiles platform)).2) ∧
    (analyzePlatformHotspots mf now profiles hotspots platform).Perm
      (platformResultsPreSort mf now profiles hotspots platform) := by
  refine ⟨?_, ?_, List.mergeSort_perm _ _⟩
  · intro h hh hle
    unfold analyzePlatformHotspots
    rw [List.mem_mergeSort]
    exact (mem_preSort_iff mf now profiles hotspots platform _).mpr ⟨h, hh, hle, rfl⟩
  · intro r hr
    unfold analyzePlatformHotspots at hr
    rw [List.mem_mergeSort] at hr
    exact (mem_preSort_iff mf now profiles hotspots platform r).mp hr

/-- The concrete total of `item9` under `pcRecOnly`'s scoring weights:
exactly the threshold `0.1`. -/
theorem scoreItem_item9_recOnly :
    (scoreItem mfW 0 item9 DEFAULT_CONFIG (some pcRecOnly)).1 = 1/10 := by
  simp only [scoreItem, pcRecOnly, swRecOnly, item9, recencyScore, Option.getD_some,
    mul_zero, zero_mul, add_zero, zero_add]
  rw [show clamp01 (1/2 * (1/5)) = 1/10 by
    unfold clamp01
    rw [show (1:ℚ)/2 * (1/5) = 1/10 by norm_num]
    rw [min_eq_right (by norm_num), max_eq_right (by norm_num)]]

theorem C2_threshold_filter_witness :
    mkSelectionResult (profilesGet [("p", pcRecOnly)] "p") item9
      (scoreItem mfW 0 item9 DEFAULT_CONFIG (profilesGet [("p", pcRecOnly)] "p")).1
      (scoreItem mfW 0 item9 DEFAULT_CONFIG (profilesGet [("p", pcRecOnly)] "p")).2 ∈
      analyzePlatformHotspots mfW 0 [("p", pcRecOnly)] [item9] "p" := by
  apply (C2_threshold_filter mfW 0 [("p", pcRecOnly)] [item9] "p").1 item9 (by simp)
  have hpg : profilesGet [("p", pcRecOnly)] "p" = some pcRecOnly := rfl
  rw [hpg, scoreItem_item9_recOnly]
  norm_num [DEFAULT_CONFIG]

/-! ## Claim C3: descending stable sort -/

/-- **C3.** The per-channel ranked list is sorted in descending order of
`total_score` (the total exposed on each result), and records whose totals
tie exactly keep their input order: for every score value, the sub-list of
results carrying that value equals the corresponding sub-list of the
threshold-filtered list in input order (stability of CPython's sort). -/
theorem C3_sorted_descending_stable (mf : MathFns) (now : ℚ)
    (profiles : List (String × PlatformConfig)) (hotspots : List Item)
    (platform : String) :
    (analyzePlatformHotspots mf now profiles hotspots platform).Sorted
      (fun a b => b.total_score ≤ a.total_score) ∧
    ∀ q : ℚ,
      (analyzePlatformHotspots mf now profiles hotspots platform).filter
        (fun r => decide (r.total_score = q)) =
      (platformResultsPreSort mf now profiles hotspots platform).filter
        (fun r => decide (r.total_score = q)) := by
  constructor
  · have hs := List.sorted_mergeSort byTotalDesc_trans byTotalDesc_total
      (platformResultsPreSort mf now profiles hotspots platform)
    exact hs.imp (fun {a b} h => by simpa [byTotalDesc] using h)
  · intro q
    set pre := platformResultsPreSort mf now profiles hotspots platform with hpre
    set p : SelectionResult → Bool := fun r => decide (r.total_score = q) with hp
    have hA_pair : (pre.filter p).Pairwise (fun a b => byTotalDesc a b) := by
      apply List.pairwise_of_forall_mem_list
      intro a ha b hb
      have haq : a.total_score = q := by
        have := (List.mem_filter.mp ha).2
        simpa [hp] using this
      have hbq : b.total_score = q := by
        have := (List.mem_filter.mp hb).2
        simpa [hp] using this
      simp [byTotalDesc, haq, hbq]
    have hsub : List.Sublist (pre.filter p) (pre.mergeSort byTotalDesc) :=
      List.sublist_mergeSort byTotalDesc_trans byTotalDesc_total hA_pair
        (List.filter_sublist pre)
    have hfix : (pre.filter p).filter p = pre.filter p :=
      List.filter_eq_self.mpr (fun a ha => (List.mem_filter.mp ha).2)
    have hsubf : List.Sublist (pre.filter p) ((pre.mergeSort byTotalDesc).filter p) := by
      have := hsub.filter p
      rwa [hfix] at this
    have hperm : List.Perm ((pre.mergeSort byTotalDesc).filter p) (pre.filter p) :=
      (List.mergeSort_perm pre byTotalDesc).filter p
    have heq := hsubf.eq_of_length hperm.length_eq.symm
    unfold analyzePlatformHotspots
    exact heq.symm

/-! ## Concrete evaluations for claim C9 -/

theorem clamp01_eq_self {x : ℚ} (h0 : 0 ≤ x) (h1 : x ≤ 1) : clamp01 x = x := by
  unfold clamp01
  rw [min_eq_right h1, max_eq_right h0]

/-- The concrete total of `item9` under the default weight path. -/
theorem scoreItem_item9_default :
    (scoreItem mfW 0 item9 DEFAULT_CONFIG none).1 = 41/200 := by
  have hhot : log1pNormHot mfW (some 0) = 0 := by
    unfold log1pNormHot mfW clamp01
    norm_num
  have hpw : platformWeight (none : Option String) DEFAULT_CONFIG = 4/5 := rfl
  simp only [scoreItem, item9, Option.getD_some, hhot, recencyScore, titleKeywordScore,
    if_pos rfl]
  rw [hpw]
  unfold clamp01
  norm_num [DEFAULT_CONFIG]

/-- Analysing `item9` for the unconfigured channel `"mystery"` yields one
surviving result. -/
theorem analyzePlatform_item9_mystery :
    analyzePlatformHotspots mfW 0 [] [item9] "mystery" =
      [mkSelectionResult none item9 (scoreItem mfW 0 item9 DEFAULT_CONFIG none).1
        (scoreItem mfW 0 item9 DEFAULT_CONFIG none).2] := by
  have hle : DEFAULT_CONFIG.threshold_score ≤ (scoreItem mfW 0 item9 DEFAULT_CONFIG none).1 := by
    rw [scoreItem_item9_default]
    norm_num [DEFAULT_CONFIG]
  have hpg : profilesGet ([] : List (String × PlatformConfig)) "mystery" = none := rfl
  have hpre : platformResultsPreSort mfW 0 [] [item9] "mystery" =
      [mkSelectionResult none item9 (scoreItem mfW 0 item9 DEFAULT_CONFIG none).1
        (scoreItem mfW 0 item9 DEFAULT_CONFIG none).2] := by
    unfold platformResultsPreSort
    dsimp only
    rw [hpg]
    rw [List.filterMap_cons, List.filterMap_nil]
    rw [if_pos hle]
  unfold analyzePlatformHotspots
  rw [hpre, List.mergeSort_singleton]

/-! ## Claim C9: unknown source codes versus unknown channels -/

/-- **C9 (counterexample).**  An unknown (unconfigured) channel is *not*
dropped by `analyze_hotspots`: requested with an empty profile table, the
channel `"mystery"` is analyzed against the empty profile and contributes
its own non-empty ranked list to the selections. -/
theorem C9_unknown_channel_produces_output :
    (analyzeHotspots mfW 0 "ts" [] [item9] (some ["mystery"])).selections =
      [("mystery", analyzePlatformHotspots mfW 0 [] [item9] "mystery")] ∧
    analyzePlatformHotspots mfW 0 [] [item9] "mystery" ≠ [] := by
  have hne : analyzePlatformHotspots mfW 0 [] [item9] "mystery" ≠ [] := by
    rw [analyzePlatform_item9_mystery]
    simp
  refine ⟨?_, hne⟩
  unfold analyzeHotspots
  simp only [List.map_cons, List.map_nil, List.filter_cons, List.filter_nil, hne,
    ne_eq, not_false_eq_true, decide_True, if_true]

/-- **C9 (amended).**  Unknown or disabled source codes are dropped from
the target list (they trigger no job and contribute no output) while the
remaining valid codes are kept; an unknown *channel* however is not
dropped: it is analyzed against the empty profile and, whenever any record
clears the threshold for it, contributes its own entry to the
selections. -/
theorem C9_amended_unknown_entries {α : Type} (cfg : List (String × SiteConfig))
    (behavior : String → SiteOutcome α) (input : Option SiteCodeInput) (nowS : String)
    (mf : MathFns) (now : ℚ) (nowIso : String)
    (profiles : List (String × PlatformConfig)) (hotspots : List Item) :
    (∀ sc ∈ getTargetSites cfg input, sc ∈ (cfg.filter (·.2.enabled)).map (·.1)) ∧
    (∀ l : List String, input = some (SiteCodeInput.list l) → l ≠ [] →
      ∀ sc ∈ l, sc ∈ (cfg.filter (·.2.enabled)).map (·.1) →
        sc ∈ getTargetSites cfg input) ∧
    (∀ e ∈ collect cfg behavior input nowS,
      e.site_code ∈ (cfg.filter (·.2.enabled)).map (·.1)) ∧
    (∀ (ps : List String) (p : String), ps ≠ [] → p ∈ ps →
      analyzePlatformHotspots mf now profiles hotspots p ≠ [] →
      (p, analyzePlatformHotspots mf now profiles hotspots p) ∈
        (analyzeHotspots mf now nowIso profiles hotspots (some ps)).selections) := by
  have h1 : ∀ sc ∈ getTargetSites cfg input, sc ∈ (cfg.filter (·.2.enabled)).map (·.1) := by
    intro sc hsc
    rcases input with _ | ci
    · simpa only [getTargetSites] using hsc
    · rcases ci with s | l
      · simp only [getTargetSites] at hsc
        by_cases hs : s = ""
        · rw [if_pos hs] at hsc
          exact hsc
        · rw [if_neg hs] at hsc
          have := (List.mem_filter.mp hsc).2
          exact of_decide_eq_true this
      · simp only [getTargetSites] at hsc
        by_cases hl : l = []
        · rw [if_pos hl] at hsc
          exact hsc
        · rw [if_neg hl] at hsc
          have := (List.mem_filter.mp hsc).2
          exact of_decide_eq_true this
  refine ⟨h1, ?_, ?_, ?_⟩
  · rintro l rfl hl sc hscl hscall
    simp only [getTargetSites]
    rw [if_neg hl]
    exact List.mem_filter.mpr ⟨hscl, decide_eq_true hscall⟩
  · intro e he
    obtain ⟨sc, hsc, hse⟩ := (mem_collect_iff cfg behavior input nowS e).mp he
    rcases hb : behavior sc with _ | _ | data <;> rw [hb] at hse
    · exact Option.noConfusion hse
    · exact Option.noConfusion hse
    · have hsite : e.site_code = sc := by
        have h2 := Option.some.inj hse
        rw [← h2]
      rw [hsite]
      exact h1 sc hsc
  · intro ps p hps hpin hne
    rcases ps with _ | ⟨p0, rest⟩
    · exact absurd rfl hps
    · unfold analyzeHotspots
      dsimp only
      apply List.mem_filter.mpr
      refine ⟨?_, by simpa using hne⟩
      exact List.mem_map.mpr ⟨p, hpin, rfl⟩

theorem C9_amended_unknown_entries_witness :
    ("a" ∈ getTargetSites sitesW (some (SiteCodeInput.list ["a", "zzz"]))) ∧
    ("mystery", analyzePlatformHotspots mfW 0 [] [item9] "mystery") ∈
      (analyzeHotspots mfW 0 "ts" [] [item9] (some ["mystery"])).selections := by
  have H := C9_amended_unknown_entries (α := ℕ) sitesW behaviorW
    (some (SiteCodeInput.list ["a", "zzz"])) "t" mfW 0 "ts" [] [item9]
  refine ⟨H.2.1 ["a", "zzz"] rfl (by simp) "a" (by simp) (by decide), ?_⟩
  apply H.2.2.2 ["mystery"] "mystery" (by simp) (by simp)
  rw [analyzePlatform_item9_mystery]
  simp

end ApiServer
